import Mathlib

/-!
Shallow embedding of the rendezvous (signaling) layer of the screen-streaming
repository.

Server side, from src/signaling_server.py: the SignalingServer class keeps
three Python dicts (hosts, clients, rooms); register_peer, notify_peers,
relay_message and the per-connection loop handle_client (including its
finally-block disconnect cleanup) are embedded below as pure functions over an
explicit ServerState, returning the list of websocket sends they perform, in
order.

Client side, from src/webrtc_client.py: the host_available branch of
handle_signaling_messages together with create_peer_connection is embedded as a
pure transition on a ClientState.

Python dicts become association lists (ainsert has dict-assignment semantics:
replace in place, else append); Python sets become duplicate-free lists with
insertion-ordered add. A JSON field read with message.get is an Option: none
stands for an absent (or null) field, since Python then yields None. Python
truthiness of such a value (used by the source in several guards) is falsy
exactly on None and on the empty string.
-/

namespace Spec2Proof

/-- Connection handle, standing for a websocket object. -/
abbrev WS := Nat

/-- A peer identity as read from a message with message.get: none models
Python None (absent field). -/
abbrev PId := Option String

/-- Python truthiness of an optional string: None and the empty string are
falsy, every other string is truthy. -/
def truthyId : PId → Bool
  | none => false
  | some s => decide (¬ s = "")

/-- Lookup in a Python dict modelled as an association list. -/
def alookup {κ ν : Type} [DecidableEq κ] : List (κ × ν) → κ → Option ν
  | [], _ => none
  | (k, v) :: rest, k' => if k = k' then some v else alookup rest k'

/-- Python dict assignment d[k] = v: replace the entry in place when the key
is present, append it otherwise. -/
def ainsert {κ ν : Type} [DecidableEq κ] : List (κ × ν) → κ → ν → List (κ × ν)
  | [], k, v => [(k, v)]
  | (k0, v0) :: rest, k, v =>
      if k0 = k then (k, v) :: rest else (k0, v0) :: ainsert rest k v

/-- Python dict deletion of key k (the source guards del with a membership
test, so deleting an absent key never happens; filtering is a no-op then). -/
def aerase {κ ν : Type} [DecidableEq κ] (d : List (κ × ν)) (k : κ) : List (κ × ν) :=
  d.filter (fun p => decide (¬ p.1 = k))

/-- In-place mutation of the value stored under key k (rooms[room_id][...] = ...). -/
def aupdate {κ ν : Type} [DecidableEq κ] (d : List (κ × ν)) (k : κ) (f : ν → ν) :
    List (κ × ν) :=
  d.map (fun p => if p.1 = k then (p.1, f p.2) else p)

/-- Python set.add on a set modelled as a duplicate-free list. -/
def sadd {α : Type} [DecidableEq α] (s : List α) (x : α) : List α :=
  if x ∈ s then s else s ++ [x]

/-- Python set.discard. -/
def sdiscard {α : Type} [DecidableEq α] (s : List α) (x : α) : List α :=
  s.filter (fun y => decide (¬ y = x))

/-- A room entry of SignalingServer.rooms: a nullable host id and a set of
client ids (signaling_server.py line 38). -/
structure Room where
  host : PId
  clients : List PId
deriving DecidableEq

/-- The fields of an inbound JSON message that signaling_server.py reads.
Every field is optional because the source reads them with message.get; the
opaque payload stands for the sdp or candidate data, which the server never
inspects. -/
structure Msg where
  type : Option String
  peer_type : PId
  peer_id : PId
  room_id : Option String
  sender : PId
  target : PId
  payload : String
deriving DecidableEq

/-- A message the server writes to a websocket: the three JSON shapes built
in register_peer and notify_peers, or a relayed inbound message forwarded
verbatim (relay_message line 101 sends json.dumps(message) unchanged). -/
inductive OutMsg where
  | registered (peer_id : PId) (room_id : String)
  | host_available (host_id : PId) (room_id : String)
  | clients_available (client_ids : List PId) (room_id : String)
  | forward (m : Msg)
deriving DecidableEq

/-- One websocket send: target handle and payload. -/
structure Send where
  ws : WS
  msg : OutMsg
deriving DecidableEq

/-- The shared mutable state of SignalingServer (lines 19 to 21). -/
structure ServerState where
  hosts : List (PId × WS)
  clients : List (PId × WS)
  rooms : List (String × Room)
deriving DecidableEq

/-- The state of a freshly constructed SignalingServer. -/
def initState : ServerState := ServerState.mk [] [] []

/-- Lines 29 to 34 of register_peer: place the websocket in the role-keyed
registry, but only for the two recognised roles. -/
def reg_registry (s : ServerState) (ws : WS) (peer_type peer_id : PId) : ServerState :=
  if peer_type = some "host" then { s with hosts := ainsert s.hosts peer_id ws }
  else if peer_type = some "client" then { s with clients := ainsert s.clients peer_id ws }
  else s

/-- Lines 36 to 38 of register_peer: initialise the room if it does not exist. -/
def reg_room_init (s : ServerState) (room_id : String) : ServerState :=
  if (alookup s.rooms room_id).isSome then s
  else { s with rooms := ainsert s.rooms room_id (Room.mk none []) }

/-- Lines 41 to 44 of register_peer: set the host field when the role is
host, otherwise add the peer to the client set (note the bare else: any
non-host role, recognised or not, lands in the client set). -/
def joinRoom (peer_type peer_id : PId) (r : Room) : Room :=
  if peer_type = some "host" then { r with host := peer_id }
  else { r with clients := sadd r.clients peer_id }

/-- The room-directory mutation of register_peer, applied at the resolved
room id. -/
def reg_room_join (s : ServerState) (peer_type peer_id : PId) (room_id : String) :
    ServerState :=
  { s with rooms := aupdate s.rooms room_id (joinRoom peer_type peer_id) }

/-- SignalingServer.notify_peers (lines 56 to 85): read the room, send a
host_available notice to every room client that is in the client registry
when the host id is truthy and registered, then send the full client list to
the host when additionally the client set is nonempty. -/
def notify_peers (s : ServerState) (room_id : String) : List Send :=
  match alookup s.rooms room_id with
  | none => []
  | some room =>
      let host_id := room.host
      let client_ids := room.clients
      let clientNotices :=
        if truthyId host_id && (alookup s.hosts host_id).isSome then
          client_ids.filterMap (fun cid =>
            (alookup s.clients cid).map
              (fun cws => Send.mk cws (OutMsg.host_available host_id room_id)))
        else []
      let hostNotices :=
        if truthyId host_id && (alookup s.hosts host_id).isSome && !client_ids.isEmpty then
          match alookup s.hosts host_id with
          | some hws => [Send.mk hws (OutMsg.clients_available client_ids room_id)]
          | none => []
        else []
      clientNotices ++ hostNotices

/-- SignalingServer.register_peer (lines 23 to 54): update the registry, set
up and join the room (room id defaults to the string default when the field
is absent), send the registration confirmation to the registering websocket,
then run notify_peers on the updated state. -/
def register_peer (s : ServerState) (ws : WS) (m : Msg) : ServerState × List Send :=
  let room_id := m.room_id.getD "default"
  let s3 := reg_room_join (reg_room_init (reg_registry s ws m.peer_type m.peer_id) room_id)
              m.peer_type m.peer_id room_id
  (s3, Send.mk ws (OutMsg.registered m.peer_id room_id) :: notify_peers s3 room_id)

/-- Outcome of relay_message: the source logs delivery at line 102 and logs a
target-not-found warning at line 104. -/
inductive RelayResult where
  | delivered
  | target_not_found
deriving DecidableEq

/-- SignalingServer.relay_message (lines 87 to 104): resolve the target in
the host registry first, then the client registry; forward the whole message
unchanged when found, otherwise report that the target was not found. The
server state is never touched. -/
def relay_message (s : ServerState) (m : Msg) : RelayResult × List Send :=
  let target_id := m.target
  let target_ws :=
    if (alookup s.hosts target_id).isSome then alookup s.hosts target_id
    else if (alookup s.clients target_id).isSome then alookup s.clients target_id
    else none
  match target_ws with
  | some tws => (RelayResult.delivered, [Send.mk tws (OutMsg.forward m)])
  | none => (RelayResult.target_not_found, [])

/-- The local state of one handle_client invocation: the peer_id variable
set by the last register message on the connection (line 116), none before
any registration. -/
structure ConnState where
  peer_id : PId
deriving DecidableEq

/-- Connection-handler state before any message arrived. -/
def initConn : ConnState := ConnState.mk none

/-- One inbound frame on a connection: either a message, or input whose JSON
parse fails (the json.JSONDecodeError branch at line 125). -/
inductive Inbound where
  | junk
  | msg (m : Msg)
deriving DecidableEq

/-- The message types dispatched to relay_message at line 119. -/
def relayTypes : List (Option String) :=
  [some "offer", some "answer", some "ice_candidate", some "client_ready"]

/-- The body of the message loop of handle_client (lines 110 to 128): a
register message updates the tracked peer_id and runs register_peer; the four
relay types run relay_message; anything else, and unparseable input, is
logged and dropped, leaving every piece of state untouched. -/
def handle_message (s : ServerState) (c : ConnState) (ws : WS) :
    Inbound → ServerState × ConnState × List Send
  | Inbound.junk => (s, c, [])
  | Inbound.msg m =>
      if m.type = some "register" then
        let p := register_peer s ws m
        (p.1, ConnState.mk m.peer_id, p.2)
      else if m.type ∈ relayTypes then
        (s, c, (relay_message s m).2)
      else
        (s, c, [])

/-- The sequential message loop of handle_client over a list of inbound
frames on one connection, collecting all sends in the order they are
awaited. -/
def run_conn (s : ServerState) (c : ConnState) (ws : WS) :
    List Inbound → ServerState × ConnState × List Send
  | [] => (s, c, [])
  | i :: rest =>
      let p := handle_message s c ws i
      let q := run_conn p.1 p.2.1 ws rest
      (q.1, q.2.1, p.2.2 ++ q.2.2)

/-- The loop body of the room repair in the finally block of handle_client
(lines 143 to 146): clear the host field when it equals the departing peer
and discard the peer from the client set. -/
def cleanRoom (pid : PId) (r : Room) : Room :=
  Room.mk (if r.host = pid then none else r.host) (sdiscard r.clients pid)

/-- The finally block of handle_client (lines 134 to 146): when the tracked
peer_id is truthy, delete it from both registries and repair every room. -/
def cleanup_disconnect (s : ServerState) (pid : PId) : ServerState :=
  if truthyId pid then
    ServerState.mk (aerase s.hosts pid) (aerase s.clients pid)
      (s.rooms.map (fun p => (p.1, cleanRoom pid p.2)))
  else s

/-- The disconnect path as a whole step of the connection handler: it repairs
the shared state and performs no websocket send (the finally block contains
no send call). -/
def handle_disconnect (s : ServerState) (c : ConnState) : ServerState × List Send :=
  (cleanup_disconnect s c.peer_id, [])

/-- A server-level event: a register message arriving on some connection, or
a connection closing with its tracked peer_id. -/
inductive Event where
  | register (ws : WS) (m : Msg)
  | disconnect (pid : PId)
deriving DecidableEq

/-- State transition of one event. -/
def step (s : ServerState) : Event → ServerState
  | Event.register ws m => (register_peer s ws m).1
  | Event.disconnect pid => cleanup_disconnect s pid

/-- Run a sequence of events from the fresh server. -/
def runEvents (evs : List Event) : ServerState :=
  evs.foldl step initState

/-- A register message carrying one of the two roles the registry recognises. -/
@[reducible] def validRole (pt : PId) : Prop := pt = some "host" ∨ pt = some "client"

/-- An event sequence is role-valid when every register message in it carries
role host or client. -/
def goodEvent : Event → Prop
  | Event.register _ m => validRole m.peer_type
  | Event.disconnect _ => True

/-- A register event with a recognised role and a truthy (present, nonempty)
peer id. -/
def strongEvent : Event → Prop
  | Event.register _ m => validRole m.peer_type ∧ truthyId m.peer_id = true
  | Event.disconnect _ => True

/-- Decidability of the role-validity of one event, used to check concrete
scenarios by evaluation. -/
instance decGoodEvent : (e : Event) → Decidable (goodEvent e)
  | Event.register _ m => inferInstanceAs (Decidable (validRole m.peer_type))
  | Event.disconnect _ => inferInstanceAs (Decidable True)

/-- Decidability of the strengthened event condition. -/
instance decStrongEvent : (e : Event) → Decidable (strongEvent e)
  | Event.register _ m =>
      inferInstanceAs (Decidable (validRole m.peer_type ∧ truthyId m.peer_id = true))
  | Event.disconnect _ => inferInstanceAs (Decidable True)

/-- The messages delivered (forwarded by the relay) to the handle t, in the
order the server sent them. -/
def deliveredForwards (t : WS) (sends : List Send) : List Msg :=
  sends.filterMap (fun sd =>
    if sd.ws = t then
      match sd.msg with
      | OutMsg.forward m0 => some m0
      | _ => none
    else none)

/-- The successfully parsed messages of an inbound stream, in arrival order. -/
def inboundMsgs : List Inbound → List Msg
  | [] => []
  | Inbound.junk :: rest => inboundMsgs rest
  | Inbound.msg m :: rest => m :: inboundMsgs rest

/-- A register message with the given role, id and room field, in the shape
the host and client programs send it (payload and relay fields unused). -/
def regMsg (pt pid : PId) (rid : Option String) : Msg :=
  Msg.mk (some "register") pt pid rid none none ""

/-- A relay message of the given type, sender, target and opaque payload. -/
def relMsg (ty : String) (snd tgt : PId) (pl : String) : Msg :=
  Msg.mk (some ty) none none none snd tgt pl

/-- Scenario event: a host with id h1 registers in room r1 on handle 0. -/
def evHost : Event := Event.register 0 (regMsg (some "host") (some "h1") (some "r1"))

/-- Scenario event: a client with id c1 registers in room r1 on handle 1. -/
def evClient : Event := Event.register 1 (regMsg (some "client") (some "c1") (some "r1"))

/-- No dangling references out of one room: a set host id is a key of the
host registry and every room client is a key of the client registry. -/
def RoomConsistent (s : ServerState) (r : Room) : Prop :=
  (∀ h, r.host = some h → (alookup s.hosts (some h)).isSome = true) ∧
  (∀ cid ∈ r.clients, (alookup s.clients cid).isSome = true)

/-- The no-dangling-references invariant over the whole room directory. -/
def Consistent (s : ServerState) : Prop :=
  ∀ rid r, alookup s.rooms rid = some r → RoomConsistent s r

/-- Strengthened room invariant: additionally every referenced id is a truthy
string, so the guards of notify_peers cannot skip anyone. -/
def GoodRoom (s : ServerState) (r : Room) : Prop :=
  (∀ h, r.host = some h →
    ¬ h = "" ∧ (alookup s.hosts (some h)).isSome = true) ∧
  (∀ cid ∈ r.clients, ∃ c, cid = some c ∧ ¬ c = "" ∧
    (alookup s.clients cid).isSome = true)

/-- Strengthened invariant over the whole room directory. -/
def GoodState (s : ServerState) : Prop :=
  ∀ rid r, alookup s.rooms rid = some r → GoodRoom s r

/-- The session-relevant fields of WebRTCClient (webrtc_client.py lines 23 to
51), with the opaque RTCPeerConnection objects the session creates numbered
by a fresh counter: peer_connection holds the current connection if any,
next_pc is the number the next created connection will get, and closed_pcs
records every connection on which close was called. -/
structure ClientState where
  peer_id : String
  host_id : Option String
  peer_connection : Option Nat
  next_pc : Nat
  closed_pcs : List Nat
  running : Bool
  frame_queue : List Nat
deriving DecidableEq

/-- A fresh WebRTCClient: no host recorded, no peer connection, idle display. -/
def initClient (pid : String) : ClientState :=
  ClientState.mk pid none none 0 [] false []

/-- WebRTCClient.create_peer_connection (lines 83 to 92): close the existing
connection if there is one, then create a fresh one and make it current. -/
def create_peer_connection (st : ClientState) : ClientState :=
  let st1 :=
    match st.peer_connection with
    | some pc => { st with closed_pcs := pc :: st.closed_pcs }
    | none => st
  { st1 with peer_connection := some st1.next_pc, next_pc := st1.next_pc + 1 }

/-- A message the client session writes to the rendezvous connection in the
host_available branch. -/
inductive ClientOut where
  | client_ready (sender : String) (target : Option String)
deriving DecidableEq

/-- The host_available branch of handle_signaling_messages (lines 311 to
329): stop the display loop, clear the frame queue, record the announced
host id, rebuild the peer connection, and send a client_ready message
targeted at the announced host. -/
def handle_host_available (st : ClientState) (hid : Option String) :
    ClientState × List ClientOut :=
  let st1 := { st with running := false, frame_queue := [], host_id := hid }
  let st2 := create_peer_connection st1
  (st2, [ClientOut.client_ready st.peer_id hid])

/-- Every created and unclosed peer connection is the current one: the
session never holds two live connections. -/
def OneLive (st : ClientState) : Prop :=
  ∀ pc, pc < st.next_pc → pc ∉ st.closed_pcs → st.peer_connection = some pc

/-- The current peer connection, if any, was created by this session. -/
def WfPc (st : ClientState) : Prop :=
  ∀ pc, st.peer_connection = some pc → pc < st.next_pc

section AssocLemmas

variable {κ ν : Type} [DecidableEq κ]

theorem alookup_ainsert (d : List (κ × ν)) (k k' : κ) (v : ν) :
    alookup (ainsert d k v) k' = if k = k' then some v else alookup d k' := by
  induction d with
  | nil => simp [ainsert, alookup]
  | cons p rest ih =>
      obtain ⟨k0, v0⟩ := p
      by_cases h0 : k0 = k
      · subst h0
        by_cases h1 : k0 = k' <;> simp [ainsert, alookup, h1]
      · by_cases h1 : k0 = k'
        · have h2 : ¬ k = k' := fun h => h0 (h1.trans h.symm)
          have h2' : ¬ k' = k := fun h => h2 h.symm
          simp [ainsert, alookup, h0, h1, h2, h2']
        · simp [ainsert, alookup, h0, h1, ih]

theorem alookup_ainsert_isSome (d : List (κ × ν)) (k k' : κ) (v : ν)
    (h : (alookup d k').isSome = true) : (alookup (ainsert d k v) k').isSome = true := by
  rw [alookup_ainsert]
  by_cases hk : k = k' <;> simp [hk, h]

theorem alookup_aerase (d : List (κ × ν)) (k k' : κ) :
    alookup (aerase d k) k' = if k' = k then none else alookup d k' := by
  induction d with
  | nil => by_cases h : k' = k <;> simp [aerase, alookup, h]
  | cons p rest ih =>
      obtain ⟨k0, v0⟩ := p
      by_cases h0 : k0 = k
      · subst h0
        have he : aerase ((k0, v0) :: rest) k0 = aerase rest k0 := by
          simp [aerase, List.filter_cons]
        rw [he, ih]
        by_cases h1 : k' = k0
        · simp [h1]
        · have h1' : ¬ k0 = k' := fun h => h1 h.symm
          simp [alookup, h1, h1']
      · have he : aerase ((k0, v0) :: rest) k = (k0, v0) :: aerase rest k := by
          simp [aerase, List.filter_cons, h0]
        rw [he]
        by_cases h1 : k0 = k'
        · subst h1
          simp [alookup, h0]
        · simp [alookup, h1, ih]

theorem alookup_aupdate (d : List (κ × ν)) (k k' : κ) (f : ν → ν) :
    alookup (aupdate d k f) k' =
      if k = k' then (alookup d k').map f else alookup d k' := by
  induction d with
  | nil => by_cases h : k = k' <;> simp [aupdate, alookup, h]
  | cons p rest ih =>
      obtain ⟨k0, v0⟩ := p
      by_cases h0 : k0 = k
      · subst h0
        have hmap : aupdate ((k0, v0) :: rest) k0 f = (k0, f v0) :: aupdate rest k0 f := by
          simp [aupdate]
        rw [hmap]
        by_cases h1 : k0 = k'
        · subst h1
          simp [alookup]
        · simp [alookup, h1, ih]
      · have hmap : aupdate ((k0, v0) :: rest) k f = (k0, v0) :: aupdate rest k f := by
          simp [aupdate, h0]
        rw [hmap]
        by_cases h1 : k0 = k'
        · subst h1
          have h2 : ¬ k = k0 := fun h => h0 h.symm
          simp [alookup, h0, h2]
        · simp [alookup, h0, h1, ih]

theorem alookup_map_value (d : List (κ × ν)) (g : ν → ν) (k : κ) :
    alookup (d.map (fun p => (p.1, g p.2))) k = (alookup d k).map g := by
  induction d with
  | nil => simp [alookup]
  | cons p rest ih =>
      obtain ⟨k0, v0⟩ := p
      by_cases h : k0 = k <;> simp [alookup, h, ih]

end AssocLemmas

section SetLemmas

variable {α : Type} [DecidableEq α]

theorem mem_sadd (s : List α) (x y : α) : y ∈ sadd s x ↔ y ∈ s ∨ y = x := by
  unfold sadd
  by_cases h : x ∈ s
  · simp only [if_pos h]
    constructor
    · exact Or.inl
    · rintro (hy | rfl) <;> [exact hy; exact h]
  · simp [if_neg h]

theorem mem_sdiscard (s : List α) (x y : α) :
    y ∈ sdiscard s x ↔ y ∈ s ∧ ¬ y = x := by
  simp [sdiscard, List.mem_filter]

end SetLemmas

section RegisterLemmas

theorem reg_registry_hosts (s : ServerState) (ws : WS) (pt pid : PId) :
    (reg_registry s ws pt pid).hosts =
      if pt = some "host" then ainsert s.hosts pid ws else s.hosts := by
  by_cases h1 : pt = some "host"
  · simp [reg_registry, h1]
  · by_cases h2 : pt = some "client" <;> simp [reg_registry, h1, h2]

theorem reg_registry_clients (s : ServerState) (ws : WS) (pt pid : PId) :
    (reg_registry s ws pt pid).clients =
      if pt = some "client" then ainsert s.clients pid ws else s.clients := by
  by_cases h1 : pt = some "host"
  · have h2 : ¬ pt = some "client" := by rw [h1]; simp
    simp [reg_registry, h1, h2]
  · by_cases h2 : pt = some "client" <;> simp [reg_registry, h1, h2]

theorem reg_registry_rooms (s : ServerState) (ws : WS) (pt pid : PId) :
    (reg_registry s ws pt pid).rooms = s.rooms := by
  by_cases h1 : pt = some "host"
  · simp [reg_registry, h1]
  · by_cases h2 : pt = some "client" <;> simp [reg_registry, h1, h2]

theorem reg_room_init_hosts (s : ServerState) (rid : String) :
    (reg_room_init s rid).hosts = s.hosts := by
  unfold reg_room_init
  split <;> rfl

theorem reg_room_init_clients (s : ServerState) (rid : String) :
    (reg_room_init s rid).clients = s.clients := by
  unfold reg_room_init
  split <;> rfl

theorem reg_room_init_lookup (s : ServerState) (rid rid' : String) :
    alookup (reg_room_init s rid).rooms rid' =
      if rid = rid' then some ((alookup s.rooms rid').getD (Room.mk none []))
      else alookup s.rooms rid' := by
  unfold reg_room_init
  by_cases hp : (alookup s.rooms rid).isSome = true
  · rw [if_pos hp]
    by_cases he : rid = rid'
    · subst he
      obtain ⟨r0, hr0⟩ := Option.isSome_iff_exists.mp hp
      simp [hr0]
    · simp [he]
  · rw [if_neg hp]
    show alookup (ainsert s.rooms rid (Room.mk none [])) rid' = _
    rw [alookup_ainsert]
    by_cases he : rid = rid'
    · subst he
      have hn : alookup s.rooms rid = none := by
        cases hx : alookup s.rooms rid with
        | none => rfl
        | some r => rw [hx] at hp; simp at hp
      rw [if_pos rfl, if_pos rfl, hn]
      rfl
    · rw [if_neg he, if_neg he]

theorem reg_room_join_hosts (s : ServerState) (pt pid : PId) (rid : String) :
    (reg_room_join s pt pid rid).hosts = s.hosts := rfl

theorem reg_room_join_clients (s : ServerState) (pt pid : PId) (rid : String) :
    (reg_room_join s pt pid rid).clients = s.clients := rfl

theorem reg_room_join_lookup (s : ServerState) (pt pid : PId) (rid rid' : String) :
    alookup (reg_room_join s pt pid rid).rooms rid' =
      if rid = rid' then (alookup s.rooms rid').map (joinRoom pt pid)
      else alookup s.rooms rid' := by
  have : (reg_room_join s pt pid rid).rooms =
      aupdate s.rooms rid (joinRoom pt pid) := rfl
  rw [this, alookup_aupdate]

theorem register_hosts (s : ServerState) (ws : WS) (m : Msg) :
    (register_peer s ws m).1.hosts =
      if m.peer_type = some "host" then ainsert s.hosts m.peer_id ws else s.hosts := by
  have : (register_peer s ws m).1 =
      reg_room_join (reg_room_init (reg_registry s ws m.peer_type m.peer_id)
        (m.room_id.getD "default")) m.peer_type m.peer_id (m.room_id.getD "default") := rfl
  rw [this, reg_room_join_hosts, reg_room_init_hosts, reg_registry_hosts]

theorem register_clients (s : ServerState) (ws : WS) (m : Msg) :
    (register_peer s ws m).1.clients =
      if m.peer_type = some "client" then ainsert s.clients m.peer_id ws else s.clients := by
  have : (register_peer s ws m).1 =
      reg_room_join (reg_room_init (reg_registry s ws m.peer_type m.peer_id)
        (m.room_id.getD "default")) m.peer_type m.peer_id (m.room_id.getD "default") := rfl
  rw [this, reg_room_join_clients, reg_room_init_clients, reg_registry_clients]

theorem register_rooms_lookup (s : ServerState) (ws : WS) (m : Msg) (rid : String) :
    alookup (register_peer s ws m).1.rooms rid =
      if m.room_id.getD "default" = rid then
        some (joinRoom m.peer_type m.peer_id
          ((alookup s.rooms rid).getD (Room.mk none [])))
      else alookup s.rooms rid := by
  have h0 : (register_peer s ws m).1 =
      reg_room_join (reg_room_init (reg_registry s ws m.peer_type m.peer_id)
        (m.room_id.getD "default")) m.peer_type m.peer_id (m.room_id.getD "default") := rfl
  rw [h0, reg_room_join_lookup]
  by_cases he : m.room_id.getD "default" = rid
  · rw [if_pos he, if_pos he, reg_room_init_lookup, if_pos he]
    rw [reg_registry_rooms]
    simp
  · rw [if_neg he, if_neg he, reg_room_init_lookup, if_neg he, reg_registry_rooms]

theorem register_sends (s : ServerState) (ws : WS) (m : Msg) :
    (register_peer s ws m).2 =
      Send.mk ws (OutMsg.registered m.peer_id (m.room_id.getD "default")) ::
        notify_peers (register_peer s ws m).1 (m.room_id.getD "default") := rfl

end RegisterLemmas

section InvariantLemmas

theorem truthy_elim (pid : PId) (h : truthyId pid = true) :
    ∃ p, pid = some p ∧ ¬ p = "" := by
  cases pid with
  | none => simp [truthyId] at h
  | some p => exact ⟨p, rfl, of_decide_eq_true h⟩

theorem roomConsistent_fresh (s : ServerState) :
    RoomConsistent s (Room.mk none []) := by
  constructor
  · intro h hh
    cases hh
  · intro cid hc
    cases hc

theorem consistent_init : Consistent initState := by
  intro rid r hr
  simp [initState, alookup] at hr

theorem consistent_register (s : ServerState) (ws : WS) (m : Msg)
    (hrole : validRole m.peer_type) (hs : Consistent s) :
    Consistent (register_peer s ws m).1 := by
  have hHmono : ∀ k, (alookup s.hosts k).isSome = true →
      (alookup (register_peer s ws m).1.hosts k).isSome = true := by
    intro k hk
    rw [register_hosts]
    split
    · exact alookup_ainsert_isSome _ _ _ _ hk
    · exact hk
  have hCmono : ∀ k, (alookup s.clients k).isSome = true →
      (alookup (register_peer s ws m).1.clients k).isSome = true := by
    intro k hk
    rw [register_clients]
    split
    · exact alookup_ainsert_isSome _ _ _ _ hk
    · exact hk
  have lift : ∀ r, RoomConsistent s r → RoomConsistent (register_peer s ws m).1 r :=
    fun r hrc => ⟨fun h hh => hHmono _ (hrc.1 h hh), fun cid hc => hCmono _ (hrc.2 cid hc)⟩
  intro rid r hr
  rw [register_rooms_lookup] at hr
  by_cases he : m.room_id.getD "default" = rid
  · rw [if_pos he] at hr
    have hrc0 : RoomConsistent s ((alookup s.rooms rid).getD (Room.mk none [])) := by
      cases hx : alookup s.rooms rid with
      | none => exact roomConsistent_fresh s
      | some rold => exact hs rid rold hx
    have hreq : r = joinRoom m.peer_type m.peer_id
        ((alookup s.rooms rid).getD (Room.mk none [])) := (Option.some.inj hr).symm
    subst hreq
    rcases hrole with hpt | hpt
    · -- host registration: the room host becomes the registering peer id
      constructor
      · intro h hh
        rw [joinRoom, if_pos hpt] at hh
        have hh' : m.peer_id = some h := hh
        rw [register_hosts, if_pos hpt, alookup_ainsert, hh', if_pos rfl]
        rfl
      · intro cid hc
        rw [joinRoom, if_pos hpt] at hc
        exact hCmono _ (hrc0.2 cid hc)
    · -- client registration: the peer id joins the client set
      have hpt' : ¬ m.peer_type = some "host" := by rw [hpt]; simp
      constructor
      · intro h hh
        rw [joinRoom, if_neg hpt'] at hh
        exact hHmono _ (hrc0.1 h hh)
      · intro cid hc
        rw [joinRoom, if_neg hpt'] at hc
        rcases (mem_sadd _ _ _).mp hc with hc' | hc'
        · exact hCmono _ (hrc0.2 cid hc')
        · subst hc'
          rw [register_clients, if_pos hpt, alookup_ainsert, if_pos rfl]
          rfl
  · rw [if_neg he] at hr
    exact lift r (hs rid r hr)

theorem cleanup_truthy (s : ServerState) (pid : PId) (ht : truthyId pid = true) :
    cleanup_disconnect s pid =
      ServerState.mk (aerase s.hosts pid) (aerase s.clients pid)
        (s.rooms.map (fun p => (p.1, cleanRoom pid p.2))) := by
  unfold cleanup_disconnect
  rw [if_pos ht]

theorem consistent_cleanup (s : ServerState) (pid : PId) (hs : Consistent s) :
    Consistent (cleanup_disconnect s pid) := by
  by_cases ht : truthyId pid = true
  · rw [cleanup_truthy s pid ht]
    intro rid r hr
    replace hr : alookup (s.rooms.map (fun p => (p.1, cleanRoom pid p.2))) rid = some r := hr
    rw [alookup_map_value] at hr
    cases hx : alookup s.rooms rid with
    | none => rw [hx] at hr; cases hr
    | some rold =>
        rw [hx] at hr
        have hreq : r = cleanRoom pid rold := (Option.some.inj hr).symm
        subst hreq
        have hrc := hs rid rold hx
        constructor
        · intro h hh
          rw [cleanRoom] at hh
          by_cases hmatch : rold.host = pid
          · rw [if_pos hmatch] at hh
            cases hh
          · rw [if_neg hmatch] at hh
            have hne : ¬ (some h : PId) = pid := by rw [← hh]; exact hmatch
            show (alookup (aerase s.hosts pid) (some h)).isSome = true
            rw [alookup_aerase, if_neg hne]
            exact hrc.1 h hh
        · intro cid hc
          rw [cleanRoom] at hc
          have hc' := (mem_sdiscard _ _ _).mp hc
          show (alookup (aerase s.clients pid) cid).isSome = true
          rw [alookup_aerase, if_neg hc'.2]
          exact hrc.2 cid hc'.1
  · unfold cleanup_disconnect
    rw [if_neg ht]
    exact hs

theorem consistent_fold (evs : List Event) :
    ∀ (s : ServerState), Consistent s → (∀ e ∈ evs, goodEvent e) →
      Consistent (evs.foldl step s) := by
  induction evs with
  | nil => intro s hs _; exact hs
  | cons e rest ih =>
      intro s hs hall
      have he := hall e (List.mem_cons_self e rest)
      rw [List.foldl_cons]
      apply ih
      · cases e with
        | register ws m => exact consistent_register s ws m he hs
        | disconnect pid => exact consistent_cleanup s pid hs
      · intro e' h'
        exact hall e' (List.mem_cons_of_mem e h')

theorem goodRoom_fresh (s : ServerState) : GoodRoom s (Room.mk none []) := by
  constructor
  · intro h hh
    cases hh
  · intro cid hc
    cases hc

theorem good_init : GoodState initState := by
  intro rid r hr
  simp [initState, alookup] at hr

theorem good_register (s : ServerState) (ws : WS) (m : Msg)
    (hrole : validRole m.peer_type) (hid : truthyId m.peer_id = true)
    (hs : GoodState s) : GoodState (register_peer s ws m).1 := by
  obtain ⟨p, hp, hpne⟩ := truthy_elim m.peer_id hid
  have hHmono : ∀ k, (alookup s.hosts k).isSome = true →
      (alookup (register_peer s ws m).1.hosts k).isSome = true := by
    intro k hk
    rw [register_hosts]
    split
    · exact alookup_ainsert_isSome _ _ _ _ hk
    · exact hk
  have hCmono : ∀ k, (alookup s.clients k).isSome = true →
      (alookup (register_peer s ws m).1.clients k).isSome = true := by
    intro k hk
    rw [register_clients]
    split
    · exact alookup_ainsert_isSome _ _ _ _ hk
    · exact hk
  have lift : ∀ r, GoodRoom s r → GoodRoom (register_peer s ws m).1 r := by
    intro r hrc
    constructor
    · intro h hh
      exact ⟨(hrc.1 h hh).1, hHmono _ (hrc.1 h hh).2⟩
    · intro cid hc
      obtain ⟨c, hc1, hc2, hc3⟩ := hrc.2 cid hc
      exact ⟨c, hc1, hc2, hCmono _ hc3⟩
  intro rid r hr
  rw [register_rooms_lookup] at hr
  by_cases he : m.room_id.getD "default" = rid
  · rw [if_pos he] at hr
    have hrc0 : GoodRoom s ((alookup s.rooms rid).getD (Room.mk none [])) := by
      cases hx : alookup s.rooms rid with
      | none => exact goodRoom_fresh s
      | some rold => exact hs rid rold hx
    have hreq : r = joinRoom m.peer_type m.peer_id
        ((alookup s.rooms rid).getD (Room.mk none [])) := (Option.some.inj hr).symm
    subst hreq
    rcases hrole with hpt | hpt
    · constructor
      · intro h hh
        rw [joinRoom, if_pos hpt] at hh
        have hh' : m.peer_id = some h := hh
        rw [hp] at hh'
        have hhp : h = p := (Option.some.inj hh').symm
        subst hhp
        constructor
        · exact hpne
        · rw [register_hosts, if_pos hpt, alookup_ainsert, hp, if_pos rfl]
          rfl
      · intro cid hc
        rw [joinRoom, if_pos hpt] at hc
        obtain ⟨c, hc1, hc2, hc3⟩ := hrc0.2 cid hc
        exact ⟨c, hc1, hc2, hCmono _ hc3⟩
    · have hpt' : ¬ m.peer_type = some "host" := by rw [hpt]; simp
      constructor
      · intro h hh
        rw [joinRoom, if_neg hpt'] at hh
        exact ⟨(hrc0.1 h hh).1, hHmono _ (hrc0.1 h hh).2⟩
      · intro cid hc
        rw [joinRoom, if_neg hpt'] at hc
        rcases (mem_sadd _ _ _).mp hc with hc' | hc'
        · obtain ⟨c, hc1, hc2, hc3⟩ := hrc0.2 cid hc'
          exact ⟨c, hc1, hc2, hCmono _ hc3⟩
        · subst hc'
          refine ⟨p, hp, hpne, ?_⟩
          rw [register_clients, if_pos hpt, alookup_ainsert, if_pos rfl]
          rfl
  · rw [if_neg he] at hr
    exact lift r (hs rid r hr)

theorem good_cleanup (s : ServerState) (pid : PId) (hs : GoodState s) :
    GoodState (cleanup_disconnect s pid) := by
  by_cases ht : truthyId pid = true
  · rw [cleanup_truthy s pid ht]
    intro rid r hr
    replace hr : alookup (s.rooms.map (fun p => (p.1, cleanRoom pid p.2))) rid = some r := hr
    rw [alookup_map_value] at hr
    cases hx : alookup s.rooms rid with
    | none => rw [hx] at hr; cases hr
    | some rold =>
        rw [hx] at hr
        have hreq : r = cleanRoom pid rold := (Option.some.inj hr).symm
        subst hreq
        have hrc := hs rid rold hx
        constructor
        · intro h hh
          rw [cleanRoom] at hh
          by_cases hmatch : rold.host = pid
          · rw [if_pos hmatch] at hh
            cases hh
          · rw [if_neg hmatch] at hh
            have hne : ¬ (some h : PId) = pid := by rw [← hh]; exact hmatch
            refine ⟨(hrc.1 h hh).1, ?_⟩
            show (alookup (aerase s.hosts pid) (some h)).isSome = true
            rw [alookup_aerase, if_neg hne]
            exact (hrc.1 h hh).2
        · intro cid hc
          rw [cleanRoom] at hc
          have hc' := (mem_sdiscard _ _ _).mp hc
          obtain ⟨c, hc1, hc2, hc3⟩ := hrc.2 cid hc'.1
          refine ⟨c, hc1, hc2, ?_⟩
          show (alookup (aerase s.clients pid) cid).isSome = true
          rw [alookup_aerase, if_neg hc'.2]
          exact hc3
  · unfold cleanup_disconnect
    rw [if_neg ht]
    exact hs

theorem good_fold (evs : List Event) :
    ∀ (s : ServerState), GoodState s → (∀ e ∈ evs, strongEvent e) →
      GoodState (evs.foldl step s) := by
  induction evs with
  | nil => intro s hs _; exact hs
  | cons e rest ih =>
      intro s hs hall
      have he := hall e (List.mem_cons_self e rest)
      rw [List.foldl_cons]
      apply ih
      · cases e with
        | register ws m => exact good_register s ws m he.1 he.2 hs
        | disconnect pid => exact good_cleanup s pid hs
      · intro e' h'
        exact hall e' (List.mem_cons_of_mem e h')

theorem notify_peers_eq (s : ServerState) (rid : String) (r : Room)
    (hr : alookup s.rooms rid = some r) :
    notify_peers s rid =
      (if truthyId r.host && (alookup s.hosts r.host).isSome then
        r.clients.filterMap (fun cid => (alookup s.clients cid).map
          (fun cws => Send.mk cws (OutMsg.host_available r.host rid)))
      else []) ++
      (if truthyId r.host && (alookup s.hosts r.host).isSome && !r.clients.isEmpty then
        match alookup s.hosts r.host with
        | some hws => [Send.mk hws (OutMsg.clients_available r.clients rid)]
        | none => []
      else []) := by
  unfold notify_peers
  rw [hr]

end InvariantLemmas

section DispatchLemmas

theorem handle_message_junk (s : ServerState) (c : ConnState) (ws : WS) :
    handle_message s c ws Inbound.junk = (s, c, []) := rfl

theorem handle_message_register (s : ServerState) (c : ConnState) (ws : WS) (m : Msg)
    (h : m.type = some "register") :
    handle_message s c ws (Inbound.msg m) =
      ((register_peer s ws m).1, ConnState.mk m.peer_id, (register_peer s ws m).2) := by
  show (if m.type = some "register" then
      let p := register_peer s ws m
      (p.1, ConnState.mk m.peer_id, p.2)
    else if m.type ∈ relayTypes then (s, c, (relay_message s m).2) else (s, c, [])) = _
  rw [if_pos h]

theorem handle_message_relay (s : ServerState) (c : ConnState) (ws : WS) (m : Msg)
    (h1 : ¬ m.type = some "register") (h2 : m.type ∈ relayTypes) :
    handle_message s c ws (Inbound.msg m) = (s, c, (relay_message s m).2) := by
  show (if m.type = some "register" then
      let p := register_peer s ws m
      (p.1, ConnState.mk m.peer_id, p.2)
    else if m.type ∈ relayTypes then (s, c, (relay_message s m).2) else (s, c, [])) = _
  rw [if_neg h1, if_pos h2]

theorem handle_message_drop (s : ServerState) (c : ConnState) (ws : WS) (m : Msg)
    (h1 : ¬ m.type = some "register") (h2 : m.type ∉ relayTypes) :
    handle_message s c ws (Inbound.msg m) = (s, c, []) := by
  show (if m.type = some "register" then
      let p := register_peer s ws m
      (p.1, ConnState.mk m.peer_id, p.2)
    else if m.type ∈ relayTypes then (s, c, (relay_message s m).2) else (s, c, [])) = _
  rw [if_neg h1, if_neg h2]

theorem run_conn_cons (s : ServerState) (c : ConnState) (ws : WS) (i : Inbound)
    (rest : List Inbound) :
    run_conn s c ws (i :: rest) =
      ((run_conn (handle_message s c ws i).1 (handle_message s c ws i).2.1 ws rest).1,
       (run_conn (handle_message s c ws i).1 (handle_message s c ws i).2.1 ws rest).2.1,
       (handle_message s c ws i).2.2 ++
         (run_conn (handle_message s c ws i).1 (handle_message s c ws i).2.1 ws rest).2.2) :=
  rfl

theorem run_conn_skip (s : ServerState) (c : ConnState) (ws : WS) (i : Inbound)
    (rest : List Inbound) (h : handle_message s c ws i = (s, c, [])) :
    run_conn s c ws (i :: rest) = run_conn s c ws rest := by
  rw [run_conn_cons, h]
  rfl

theorem relay_message_eq (s : ServerState) (m : Msg) :
    relay_message s m =
      match (if (alookup s.hosts m.target).isSome then alookup s.hosts m.target
             else if (alookup s.clients m.target).isSome then alookup s.clients m.target
             else none) with
      | some tws => (RelayResult.delivered, [Send.mk tws (OutMsg.forward m)])
      | none => (RelayResult.target_not_found, []) := rfl

end DispatchLemmas

section OrderLemmas

theorem deliveredForwards_append (t : WS) (a b : List Send) :
    deliveredForwards t (a ++ b) = deliveredForwards t a ++ deliveredForwards t b := by
  unfold deliveredForwards
  rw [List.filterMap_append]

theorem notify_none (s : ServerState) (rid : String)
    (hx : alookup s.rooms rid = none) : notify_peers s rid = [] := by
  unfold notify_peers
  rw [hx]

theorem notify_msg_shape (s : ServerState) (rid : String) (sd : Send)
    (h : sd ∈ notify_peers s rid) :
    (∃ hid, sd.msg = OutMsg.host_available hid rid) ∨
    (∃ cids, sd.msg = OutMsg.clients_available cids rid) := by
  cases hx : alookup s.rooms rid with
  | none => rw [notify_none s rid hx] at h; cases h
  | some r =>
      rw [notify_peers_eq s rid r hx] at h
      rcases List.mem_append.mp h with h1 | h2
      · by_cases hc : (truthyId r.host && (alookup s.hosts r.host).isSome) = true
        · rw [if_pos hc] at h1
          obtain ⟨cid, _, hmap⟩ := List.mem_filterMap.mp h1
          cases hy : alookup s.clients cid with
          | none => rw [hy] at hmap; cases hmap
          | some cws =>
              rw [hy] at hmap
              left
              refine ⟨r.host, ?_⟩
              have hsd : Send.mk cws (OutMsg.host_available r.host rid) = sd :=
                Option.some.inj hmap
              rw [← hsd]
        · rw [if_neg hc] at h1
          cases h1
      · by_cases hc : (truthyId r.host && (alookup s.hosts r.host).isSome
            && !r.clients.isEmpty) = true
        · rw [if_pos hc] at h2
          cases hy : alookup s.hosts r.host with
          | none => rw [hy] at h2; cases h2
          | some hws =>
              rw [hy] at h2
              right
              refine ⟨r.clients, ?_⟩
              have hsd : sd = Send.mk hws (OutMsg.clients_available r.clients rid) :=
                List.mem_singleton.mp h2
              rw [hsd]
        · rw [if_neg hc] at h2
          cases h2

theorem deliveredForwards_notify (t : WS) (s : ServerState) (rid : String) :
    deliveredForwards t (notify_peers s rid) = [] := by
  unfold deliveredForwards
  rw [List.filterMap_eq_nil_iff]
  intro sd hsd
  rcases notify_msg_shape s rid sd hsd with ⟨hid, hm⟩ | ⟨cids, hm⟩ <;>
    · rw [hm]
      split <;> rfl

theorem deliveredForwards_cons_nonforward (t : WS) (sd : Send) (rest : List Send)
    (h : ∀ m0, ¬ sd.msg = OutMsg.forward m0) :
    deliveredForwards t (sd :: rest) = deliveredForwards t rest := by
  unfold deliveredForwards
  rw [List.filterMap_cons]
  have hf : (if sd.ws = t then
      match sd.msg with
      | OutMsg.forward m0 => some m0
      | _ => none
    else none) = none := by
    by_cases hw : sd.ws = t
    · rw [if_pos hw]
      cases hm : sd.msg with
      | registered a b => rfl
      | host_available a b => rfl
      | clients_available a b => rfl
      | forward m0 => exact absurd hm (h m0)
    · rw [if_neg hw]
  rw [hf]

theorem deliveredForwards_register (t : WS) (s : ServerState) (ws : WS) (m : Msg) :
    deliveredForwards t (register_peer s ws m).2 = [] := by
  rw [register_sends, deliveredForwards_cons_nonforward, deliveredForwards_notify]
  intro m0 hcontra
  cases hcontra

theorem run_conn_sends (s : ServerState) (c : ConnState) (ws : WS) (i : Inbound)
    (rest : List Inbound) :
    (run_conn s c ws (i :: rest)).2.2 =
      (handle_message s c ws i).2.2 ++
      (run_conn (handle_message s c ws i).1 (handle_message s c ws i).2.1 ws rest).2.2 :=
  rfl

theorem relay_hit_host (s : ServerState) (m : Msg) (tws : WS)
    (h : alookup s.hosts m.target = some tws) :
    relay_message s m = (RelayResult.delivered, [Send.mk tws (OutMsg.forward m)]) := by
  rw [relay_message_eq, h]
  rfl

theorem relay_hit_client (s : ServerState) (m : Msg) (tws : WS)
    (hh : alookup s.hosts m.target = none) (hc : alookup s.clients m.target = some tws) :
    relay_message s m = (RelayResult.delivered, [Send.mk tws (OutMsg.forward m)]) := by
  rw [relay_message_eq, hh, hc]
  rfl

theorem relay_miss (s : ServerState) (m : Msg)
    (hh : alookup s.hosts m.target = none) (hc : alookup s.clients m.target = none) :
    relay_message s m = (RelayResult.target_not_found, []) := by
  rw [relay_message_eq, hh, hc]
  rfl

end OrderLemmas

section Claims

/-- C1 (amended: every register event carries role host or client). For every
such sequence of register and disconnect events, after any prefix the room
directory has no dangling references: a set host field names a key of the
host registry and every room client names a key of the client registry. -/
theorem c1_registry_no_dangling (evs : List Event) (hevs : ∀ e ∈ evs, goodEvent e) :
    Consistent (runEvents evs) :=
  consistent_fold evs initState consistent_init hevs

/-- Witness for C1: a host and a client register in room r1 and the host then
disconnects; the hypotheses hold and the invariant is established. -/
theorem c1_registry_no_dangling_witness :
    (∀ e ∈ [evHost, evClient, Event.disconnect (some "h1")], goodEvent e) ∧
    Consistent (runEvents [evHost, evClient, Event.disconnect (some "h1")]) :=
  ⟨by decide, c1_registry_no_dangling [evHost, evClient, Event.disconnect (some "h1")]
    (by decide)⟩

/-- Counterexample for C1 as stated: a single register event whose peer_type
is gateway puts the peer id into the room client set (the bare else branch of
register_peer) without entering any registry, so the no-dangling-references
invariant fails after that registration. -/
theorem c1_counterexample :
    ¬ Consistent (runEvents
      [Event.register 0 (regMsg (some "gateway") (some "g1") (some "r1"))]) := by
  intro h
  have hroom : alookup (runEvents
      [Event.register 0 (regMsg (some "gateway") (some "g1") (some "r1"))]).rooms "r1" =
      some (Room.mk none [some "g1"]) := by decide
  have hmem : (some "g1" : PId) ∈ (Room.mk none [some "g1"]).clients := by decide
  have hdangling := (h "r1" (Room.mk none [some "g1"]) hroom).2 (some "g1") hmem
  exact absurd hdangling (by decide)

/-- C2: a relay-typed message (offer, answer, ice_candidate, client_ready)
leaves the server state and connection state untouched; when the target is
registered as a host, or else as a client, the whole message is forwarded
unchanged to that handle and the relay reports delivery; when the target is
in neither registry the relay reports target_not_found and nothing is sent. -/
theorem c2_relay_forwarding (s : ServerState) (c : ConnState) (ws : WS) (m : Msg)
    (hty : m.type ∈ relayTypes) :
    (handle_message s c ws (Inbound.msg m)).1 = s ∧
    (handle_message s c ws (Inbound.msg m)).2.1 = c ∧
    (∀ tws, alookup s.hosts m.target = some tws →
      (relay_message s m).1 = RelayResult.delivered ∧
      (handle_message s c ws (Inbound.msg m)).2.2 = [Send.mk tws (OutMsg.forward m)]) ∧
    (alookup s.hosts m.target = none → ∀ tws, alookup s.clients m.target = some tws →
      (relay_message s m).1 = RelayResult.delivered ∧
      (handle_message s c ws (Inbound.msg m)).2.2 = [Send.mk tws (OutMsg.forward m)]) ∧
    (alookup s.hosts m.target = none → alookup s.clients m.target = none →
      (relay_message s m).1 = RelayResult.target_not_found ∧
      (handle_message s c ws (Inbound.msg m)).2.2 = []) := by
  have hreg : ¬ m.type = some "register" := by
    intro hcontra
    rw [hcontra] at hty
    simp [relayTypes] at hty
  rw [handle_message_relay s c ws m hreg hty]
  refine ⟨rfl, rfl, ?_, ?_, ?_⟩
  · intro tws htw
    rw [relay_hit_host s m tws htw]
    exact ⟨rfl, rfl⟩
  · intro hh tws htw
    rw [relay_hit_client s m tws hh htw]
    exact ⟨rfl, rfl⟩
  · intro hh hc
    rw [relay_miss s m hh hc]
    exact ⟨rfl, rfl⟩

/-- Witness for C2: with host h1 registered on handle 0, a client_ready
message targeting h1 is forwarded verbatim to handle 0 and reported
delivered, with no state change; a client_ready targeting an absent peer
reports target_not_found with nothing sent. -/
theorem c2_relay_forwarding_witness :
    (handle_message (runEvents [evHost]) initConn 1
      (Inbound.msg (relMsg "client_ready" (some "c1") (some "h1") ""))).1 =
        runEvents [evHost] ∧
    (relay_message (runEvents [evHost])
      (relMsg "client_ready" (some "c1") (some "h1") "")).1 = RelayResult.delivered ∧
    (handle_message (runEvents [evHost]) initConn 1
      (Inbound.msg (relMsg "client_ready" (some "c1") (some "h1") ""))).2.2 =
      [Send.mk 0 (OutMsg.forward (relMsg "client_ready" (some "c1") (some "h1") ""))] ∧
    (relay_message (runEvents [evHost])
      (relMsg "client_ready" (some "c1") (some "nope") "")).1 =
        RelayResult.target_not_found ∧
    (handle_message (runEvents [evHost]) initConn 1
      (Inbound.msg (relMsg "client_ready" (some "c1") (some "nope") ""))).2.2 = [] := by
  have h1 := c2_relay_forwarding (runEvents [evHost]) initConn 1
    (relMsg "client_ready" (some "c1") (some "h1") "") (by decide)
  have h2 := c2_relay_forwarding (runEvents [evHost]) initConn 1
    (relMsg "client_ready" (some "c1") (some "nope") "") (by decide)
  refine ⟨h1.1, ?_, ?_, ?_, ?_⟩
  · exact (h1.2.2.1 0 (by decide)).1
  · exact (h1.2.2.1 0 (by decide)).2
  · exact (h2.2.2.2.2 (by decide) (by decide)).1
  · exact (h2.2.2.2.2 (by decide) (by decide)).2

/-- C4 (amended: the register message carries role host or client). Such a
register inserts the websocket under the peer id in the matching registry,
joins the peer to the room resolved with default room id when the field is
absent, and the reply list starts with the registration confirmation to the
sender followed by the availability notifications computed afterwards. -/
theorem c4_register_contract (s : ServerState) (ws : WS) (m : Msg)
    (hrole : validRole m.peer_type) :
    ∃ r, alookup (register_peer s ws m).1.rooms (m.room_id.getD "default") = some r ∧
      ((m.peer_type = some "host" ∧
          alookup (register_peer s ws m).1.hosts m.peer_id = some ws ∧
          r.host = m.peer_id) ∨
       (m.peer_type = some "client" ∧
          alookup (register_peer s ws m).1.clients m.peer_id = some ws ∧
          m.peer_id ∈ r.clients)) ∧
      (register_peer s ws m).2 =
        Send.mk ws (OutMsg.registered m.peer_id (m.room_id.getD "default")) ::
          notify_peers (register_peer s ws m).1 (m.room_id.getD "default") := by
  rw [register_rooms_lookup, if_pos rfl]
  refine ⟨_, rfl, ?_, register_sends s ws m⟩
  rcases hrole with hpt | hpt
  · left
    refine ⟨hpt, ?_, ?_⟩
    · rw [register_hosts, if_pos hpt, alookup_ainsert, if_pos rfl]
    · rw [joinRoom, if_pos hpt]
  · right
    have hpt' : ¬ m.peer_type = some "host" := by rw [hpt]; simp
    refine ⟨hpt, ?_, ?_⟩
    · rw [register_clients, if_pos hpt, alookup_ainsert, if_pos rfl]
    · rw [joinRoom, if_neg hpt']
      exact (mem_sadd _ _ _).mpr (Or.inr rfl)

/-- Witness for C4: a client registering with no room field lands in room
default, its handle is stored in the client registry, and the reply starts
with the confirmation followed by the notifications. -/
theorem c4_register_contract_witness :
    ∃ r, alookup (register_peer initState 1
        (regMsg (some "client") (some "c1") none)).1.rooms "default" = some r ∧
      (((regMsg (some "client") (some "c1") none).peer_type = some "host" ∧
          alookup (register_peer initState 1
            (regMsg (some "client") (some "c1") none)).1.hosts (some "c1") = some 1 ∧
          r.host = some "c1") ∨
       ((regMsg (some "client") (some "c1") none).peer_type = some "client" ∧
          alookup (register_peer initState 1
            (regMsg (some "client") (some "c1") none)).1.clients (some "c1") = some 1 ∧
          (some "c1" : PId) ∈ r.clients)) ∧
      (register_peer initState 1 (regMsg (some "client") (some "c1") none)).2 =
        Send.mk 1 (OutMsg.registered (some "c1") "default") ::
          notify_peers (register_peer initState 1
            (regMsg (some "client") (some "c1") none)).1 "default" :=
  c4_register_contract initState 1 (regMsg (some "client") (some "c1") none) (Or.inr rfl)

/-- Counterexample for C4 as stated: on a register message whose peer_type is
gateway the server stores the peer in neither registry, so the claimed
insertion into the role-keyed registry does not happen, although the room
join and the confirmation still do. -/
theorem c4_counterexample :
    alookup (register_peer initState 0
      (regMsg (some "gateway") (some "g1") (some "r1"))).1.hosts (some "g1") = none ∧
    alookup (register_peer initState 0
      (regMsg (some "gateway") (some "g1") (some "r1"))).1.clients (some "g1") = none := by
  decide

/-- C5 (amended: the registered peer id is nonempty). When a connection whose
tracked peer id is a nonempty string closes, the cleanup removes that id from
both registries and from every room, so no room snapshot keeps it as host or
client, and the cleanup itself sends nothing. -/
theorem c5_disconnect_cleanup (s : ServerState) (c : ConnState) (pid : String)
    (hc : c.peer_id = some pid) (hne : ¬ pid = "") :
    alookup (handle_disconnect s c).1.hosts (some pid) = none ∧
    alookup (handle_disconnect s c).1.clients (some pid) = none ∧
    (∀ rid r, alookup (handle_disconnect s c).1.rooms rid = some r →
      ¬ r.host = some pid ∧ (some pid : PId) ∉ r.clients) ∧
    (handle_disconnect s c).2 = [] := by
  have ht : truthyId (some pid) = true := decide_eq_true hne
  have hstate : (handle_disconnect s c).1 =
      ServerState.mk (aerase s.hosts (some pid)) (aerase s.clients (some pid))
        (s.rooms.map (fun p => (p.1, cleanRoom (some pid) p.2))) := by
    show cleanup_disconnect s c.peer_id = _
    rw [hc, cleanup_truthy s (some pid) ht]
  refine ⟨?_, ?_, ?_, rfl⟩
  · rw [hstate]
    show alookup (aerase s.hosts (some pid)) (some pid) = none
    rw [alookup_aerase, if_pos rfl]
  · rw [hstate]
    show alookup (aerase s.clients (some pid)) (some pid) = none
    rw [alookup_aerase, if_pos rfl]
  · intro rid r hr
    rw [hstate] at hr
    replace hr : alookup (s.rooms.map (fun p => (p.1, cleanRoom (some pid) p.2))) rid
        = some r := hr
    rw [alookup_map_value] at hr
    cases hx : alookup s.rooms rid with
    | none => rw [hx] at hr; cases hr
    | some rold =>
        rw [hx] at hr
        have hreq : r = cleanRoom (some pid) rold := (Option.some.inj hr).symm
        subst hreq
        constructor
        · rw [cleanRoom]
          by_cases hm : rold.host = some pid
          · rw [if_pos hm]
            simp
          · rw [if_neg hm]
            exact hm
        · rw [cleanRoom]
          intro hmem
          exact ((mem_sdiscard _ _ _).mp hmem).2 rfl

/-- Witness for C5: after host h1 and client c1 register in r1, the
connection tracked as h1 closes; h1 is gone from both registries and from
room r1 in both positions, and the cleanup sends nothing. -/
theorem c5_disconnect_cleanup_witness :
    alookup (handle_disconnect (runEvents [evHost, evClient])
      (ConnState.mk (some "h1"))).1.hosts (some "h1") = none ∧
    alookup (handle_disconnect (runEvents [evHost, evClient])
      (ConnState.mk (some "h1"))).1.clients (some "h1") = none ∧
    (∀ rid r, alookup (handle_disconnect (runEvents [evHost, evClient])
        (ConnState.mk (some "h1"))).1.rooms rid = some r →
      ¬ r.host = some "h1" ∧ (some "h1" : PId) ∉ r.clients) ∧
    (handle_disconnect (runEvents [evHost, evClient]) (ConnState.mk (some "h1"))).2 = [] :=
  c5_disconnect_cleanup (runEvents [evHost, evClient]) (ConnState.mk (some "h1")) "h1"
    rfl (by decide)

/-- Counterexample for C5 as stated: a client that registered under the empty
string id is skipped by the truthiness guard of the cleanup, so after its
connection closes it is still in the client registry and still in the room
client set. -/
theorem c5_counterexample :
    alookup (handle_disconnect
      (runEvents [Event.register 0 (regMsg (some "client") (some "") (some "r1"))])
      (ConnState.mk (some ""))).1.clients (some "") = some 0 ∧
    alookup (handle_disconnect
      (runEvents [Event.register 0 (regMsg (some "client") (some "") (some "r1"))])
      (ConnState.mk (some ""))).1.rooms "r1" = some (Room.mk none [some ""]) := by
  decide

/-- C6: registering a host into a room makes that peer id the room host,
overwriting whatever host id the room held before; the room host is a single
nullable field, so a room never holds two hosts at once. -/
theorem c6_host_overwrite (s : ServerState) (ws : WS) (m : Msg)
    (h : m.peer_type = some "host") :
    ∃ r, alookup (register_peer s ws m).1.rooms (m.room_id.getD "default") = some r ∧
      r.host = m.peer_id := by
  rw [register_rooms_lookup, if_pos rfl]
  refine ⟨_, rfl, ?_⟩
  rw [joinRoom, if_pos h]

/-- Witness for C6: after host h1 owns room r1, a second host h2 registering
in r1 becomes the sole host recorded in the snapshot. -/
theorem c6_host_overwrite_witness :
    ∃ r, alookup (register_peer (runEvents [evHost]) 2
        (regMsg (some "host") (some "h2") (some "r1"))).1.rooms "r1" = some r ∧
      r.host = some "h2" :=
  c6_host_overwrite (runEvents [evHost]) 2 (regMsg (some "host") (some "h2") (some "r1"))
    rfl

/-- C7: an inbound frame that fails to parse, and a parsed message whose type
is none of register, offer, answer, ice_candidate, client_ready, are dropped:
processing the rest of the connection from the same state gives identical
results, so nothing was mutated, nothing was sent, and later messages on the
connection are still processed. -/
theorem c7_unknown_dropped (s : ServerState) (c : ConnState) (ws : WS)
    (rest : List Inbound) (m : Msg)
    (h1 : ¬ m.type = some "register") (h2 : m.type ∉ relayTypes) :
    run_conn s c ws (Inbound.msg m :: rest) = run_conn s c ws rest ∧
    run_conn s c ws (Inbound.junk :: rest) = run_conn s c ws rest :=
  ⟨run_conn_skip s c ws (Inbound.msg m) rest (handle_message_drop s c ws m h1 h2),
   run_conn_skip s c ws Inbound.junk rest (handle_message_junk s c ws)⟩

/-- Witness for C7: a message of unknown type bogus, and unparseable input,
are both dropped while a later register message on the same connection is
still processed. -/
theorem c7_unknown_dropped_witness :
    run_conn initState initConn 0
        (Inbound.msg (relMsg "bogus" (some "x") (some "y") "") ::
          [Inbound.msg (regMsg (some "host") (some "h1") (some "r1"))]) =
      run_conn initState initConn 0
        [Inbound.msg (regMsg (some "host") (some "h1") (some "r1"))] ∧
    run_conn initState initConn 0
        (Inbound.junk :: [Inbound.msg (regMsg (some "host") (some "h1") (some "r1"))]) =
      run_conn initState initConn 0
        [Inbound.msg (regMsg (some "host") (some "h1") (some "r1"))] :=
  c7_unknown_dropped initState initConn 0
    [Inbound.msg (regMsg (some "host") (some "h1") (some "r1"))]
    (relMsg "bogus" (some "x") (some "y") "") (by decide) (by decide)

/-- C10: a register message whose peer_type is neither host nor client still
adds the peer id to the room client set (the bare else branch) and still gets
the registered confirmation first in the reply, while both registries are
left exactly as they were. -/
theorem c10_unknown_role (s : ServerState) (ws : WS) (m : Msg)
    (h1 : ¬ m.peer_type = some "host") (h2 : ¬ m.peer_type = some "client") :
    (register_peer s ws m).1.hosts = s.hosts ∧
    (register_peer s ws m).1.clients = s.clients ∧
    (∃ r, alookup (register_peer s ws m).1.rooms (m.room_id.getD "default") = some r ∧
      m.peer_id ∈ r.clients) ∧
    (register_peer s ws m).2 =
      Send.mk ws (OutMsg.registered m.peer_id (m.room_id.getD "default")) ::
        notify_peers (register_peer s ws m).1 (m.room_id.getD "default") := by
  refine ⟨?_, ?_, ?_, register_sends s ws m⟩
  · rw [register_hosts, if_neg h1]
  · rw [register_clients, if_neg h2]
  · rw [register_rooms_lookup, if_pos rfl]
    refine ⟨_, rfl, ?_⟩
    rw [joinRoom, if_neg h1]
    exact (mem_sadd _ _ _).mpr (Or.inr rfl)

/-- Witness for C10: a register with peer_type gateway joins the room client
set and is confirmed, while both registries stay empty. -/
theorem c10_unknown_role_witness :
    (register_peer initState 0
      (regMsg (some "gateway") (some "g1") (some "r1"))).1.hosts = initState.hosts ∧
    (register_peer initState 0
      (regMsg (some "gateway") (some "g1") (some "r1"))).1.clients = initState.clients ∧
    (∃ r, alookup (register_peer initState 0
        (regMsg (some "gateway") (some "g1") (some "r1"))).1.rooms "r1" = some r ∧
      (some "g1" : PId) ∈ r.clients) ∧
    (register_peer initState 0 (regMsg (some "gateway") (some "g1") (some "r1"))).2 =
      Send.mk 0 (OutMsg.registered (some "g1") "r1") ::
        notify_peers (register_peer initState 0
          (regMsg (some "gateway") (some "g1") (some "r1"))).1 "r1" :=
  c10_unknown_role initState 0 (regMsg (some "gateway") (some "g1") (some "r1"))
    (by decide) (by decide)

/-- C3 (amended: all register events, including the final one, carry role
host or client and a nonempty peer id). After such a registration, if the
room of the registration has a host then every client in that room is sent a
host_available notice carrying the host id, and if the room has at least one
client then the host is sent a clients_available notice carrying the full
client list; in particular host-then-client registration in one room notifies
both sides. -/
theorem c3_availability_notices (evs : List Event) (hevs : ∀ e ∈ evs, strongEvent e)
    (ws : WS) (m : Msg) (hrole : validRole m.peer_type)
    (hid : truthyId m.peer_id = true) :
    ∀ r, alookup (register_peer (runEvents evs) ws m).1.rooms
        (m.room_id.getD "default") = some r →
      ∀ h, r.host = some h →
        (∀ cid, cid ∈ r.clients → ∃ cws,
          alookup (register_peer (runEvents evs) ws m).1.clients cid = some cws ∧
          Send.mk cws (OutMsg.host_available (some h) (m.room_id.getD "default"))
            ∈ (register_peer (runEvents evs) ws m).2) ∧
        (¬ r.clients = [] → ∃ hws,
          alookup (register_peer (runEvents evs) ws m).1.hosts (some h) = some hws ∧
          Send.mk hws (OutMsg.clients_available r.clients (m.room_id.getD "default"))
            ∈ (register_peer (runEvents evs) ws m).2) := by
  intro r hr h hh
  have hgood : GoodState (register_peer (runEvents evs) ws m).1 :=
    good_register (runEvents evs) ws m hrole hid (good_fold evs initState good_init hevs)
  have hroom := hgood (m.room_id.getD "default") r hr
  obtain ⟨hne, hsome⟩ := hroom.1 h hh
  obtain ⟨hws, hhws⟩ := Option.isSome_iff_exists.mp hsome
  have htr : truthyId (some h) = true := decide_eq_true hne
  have hnot := notify_peers_eq (register_peer (runEvents evs) ws m).1
    (m.room_id.getD "default") r hr
  have hcond : (truthyId r.host &&
      (alookup (register_peer (runEvents evs) ws m).1.hosts r.host).isSome) = true := by
    rw [hh, htr, hhws]
    rfl
  constructor
  · intro cid hcid
    obtain ⟨cc, hc1, hc2, hc3⟩ := hroom.2 cid hcid
    obtain ⟨cws, hcws⟩ := Option.isSome_iff_exists.mp hc3
    refine ⟨cws, hcws, ?_⟩
    rw [register_sends]
    apply List.mem_cons_of_mem
    rw [hnot]
    apply List.mem_append_left
    rw [if_pos hcond]
    apply List.mem_filterMap.mpr
    refine ⟨cid, hcid, ?_⟩
    rw [hcws, hh]
    rfl
  · intro hcne
    refine ⟨hws, hhws, ?_⟩
    rw [register_sends]
    apply List.mem_cons_of_mem
    rw [hnot]
    apply List.mem_append_right
    have hemp : r.clients.isEmpty = false := by
      cases hcl : r.clients with
      | nil => exact absurd hcl hcne
      | cons a l => rfl
    have hcond2 : (truthyId r.host &&
        (alookup (register_peer (runEvents evs) ws m).1.hosts r.host).isSome &&
        !r.clients.isEmpty) = true := by
      rw [hh, htr, hhws, hemp]
      rfl
    rw [if_pos hcond2, hh, hhws]
    exact List.mem_singleton.mpr rfl

/-- Witness for C3: host h1 registers in r1, then client c1 registers in r1;
the client is sent host_available with h1 and the host is sent
clients_available with the client list containing c1. -/
theorem c3_availability_notices_witness :
    (∃ cws, alookup (register_peer (runEvents [evHost]) 1
        (regMsg (some "client") (some "c1") (some "r1"))).1.clients (some "c1")
        = some cws ∧
      Send.mk cws (OutMsg.host_available (some "h1") "r1")
        ∈ (register_peer (runEvents [evHost]) 1
            (regMsg (some "client") (some "c1") (some "r1"))).2) ∧
    (∃ hws, alookup (register_peer (runEvents [evHost]) 1
        (regMsg (some "client") (some "c1") (some "r1"))).1.hosts (some "h1")
        = some hws ∧
      Send.mk hws (OutMsg.clients_available [some "c1"] "r1")
        ∈ (register_peer (runEvents [evHost]) 1
            (regMsg (some "client") (some "c1") (some "r1"))).2) := by
  have h := c3_availability_notices [evHost] (by decide) 1
    (regMsg (some "client") (some "c1") (some "r1")) (Or.inr rfl) (by decide)
    (Room.mk (some "h1") [some "c1"]) (by decide) "h1" rfl
  exact ⟨h.1 (some "c1") (by decide), h.2 (by decide)⟩

/-- Counterexample for C3 as stated: first, a host registered under the empty
string id is skipped by the truthiness guard of notify_peers, so a room with
a set host field and one client produces no host_available notice at all;
second, a peer placed in the room client set by a gateway-typed register is
not in the client registry, so it receives no host_available notice although
it is a client currently in the room. -/
theorem c3_counterexample :
    (alookup (register_peer
        (runEvents [Event.register 0 (regMsg (some "host") (some "") (some "r1"))]) 1
        (regMsg (some "client") (some "c1") (some "r1"))).1.rooms "r1" =
      some (Room.mk (some "") [some "c1"]) ∧
     (register_peer
        (runEvents [Event.register 0 (regMsg (some "host") (some "") (some "r1"))]) 1
        (regMsg (some "client") (some "c1") (some "r1"))).2 =
      [Send.mk 1 (OutMsg.registered (some "c1") "r1")]) ∧
    (alookup (register_peer (runEvents [evHost,
        Event.register 1 (regMsg (some "gateway") (some "g1") (some "r1"))]) 2
        (regMsg (some "client") (some "c1") (some "r1"))).1.rooms "r1" =
      some (Room.mk (some "h1") [some "g1", some "c1"]) ∧
     (register_peer (runEvents [evHost,
        Event.register 1 (regMsg (some "gateway") (some "g1") (some "r1"))]) 2
        (regMsg (some "client") (some "c1") (some "r1"))).2 =
      [Send.mk 2 (OutMsg.registered (some "c1") "r1"),
       Send.mk 2 (OutMsg.host_available (some "h1") "r1"),
       Send.mk 0 (OutMsg.clients_available [some "g1", some "c1"] "r1")]) := by
  decide

/-- C9: along one connection the server processes inbound frames in order
and awaits each send before the next, so the sequence of messages forwarded
to any fixed target handle is a subsequence of the inbound message sequence:
if the sender sends A before B and both reach the same target, A is
delivered before B. -/
theorem c9_fifo_per_target (s : ServerState) (c : ConnState) (ws t : WS)
    (ins : List Inbound) :
    List.Sublist (deliveredForwards t (run_conn s c ws ins).2.2) (inboundMsgs ins) := by
  induction ins generalizing s c with
  | nil => exact List.Sublist.refl []
  | cons i rest ih =>
      rw [run_conn_sends, deliveredForwards_append]
      cases i with
      | junk =>
          simp only [handle_message_junk]
          show List.Sublist ([] ++ deliveredForwards t (run_conn s c ws rest).2.2)
            (inboundMsgs rest)
          rw [List.nil_append]
          exact ih s c
      | msg m =>
          by_cases hreg : m.type = some "register"
          · simp only [handle_message_register s c ws m hreg]
            rw [deliveredForwards_register]
            show List.Sublist ([] ++ deliveredForwards t
              (run_conn (register_peer s ws m).1 (ConnState.mk m.peer_id) ws rest).2.2)
              (m :: inboundMsgs rest)
            rw [List.nil_append]
            exact List.Sublist.cons m (ih _ _)
          · by_cases hrel : m.type ∈ relayTypes
            · simp only [handle_message_relay s c ws m hreg hrel]
              show List.Sublist (deliveredForwards t (relay_message s m).2 ++
                deliveredForwards t (run_conn s c ws rest).2.2) (m :: inboundMsgs rest)
              cases hx : (if (alookup s.hosts m.target).isSome then alookup s.hosts m.target
                  else if (alookup s.clients m.target).isSome then alookup s.clients m.target
                  else none) with
              | none =>
                  have hnil : (relay_message s m).2 = [] := by
                    rw [relay_message_eq, hx]
                  rw [hnil]
                  show List.Sublist ([] ++ deliveredForwards t (run_conn s c ws rest).2.2)
                    (m :: inboundMsgs rest)
                  rw [List.nil_append]
                  exact List.Sublist.cons m (ih s c)
              | some tws =>
                  have hone : (relay_message s m).2 = [Send.mk tws (OutMsg.forward m)] := by
                    rw [relay_message_eq, hx]
                  rw [hone]
                  by_cases hw : tws = t
                  · have hdel : deliveredForwards t [Send.mk tws (OutMsg.forward m)]
                        = [m] := by
                      unfold deliveredForwards
                      simp [hw]
                    rw [hdel]
                    exact List.Sublist.cons₂ m (ih s c)
                  · have hdel : deliveredForwards t [Send.mk tws (OutMsg.forward m)]
                        = [] := by
                      unfold deliveredForwards
                      simp [hw]
                    rw [hdel]
                    show List.Sublist ([] ++ deliveredForwards t
                      (run_conn s c ws rest).2.2) (m :: inboundMsgs rest)
                    rw [List.nil_append]
                    exact List.Sublist.cons m (ih s c)
            · simp only [handle_message_drop s c ws m hreg hrel]
              show List.Sublist ([] ++ deliveredForwards t (run_conn s c ws rest).2.2)
                (m :: inboundMsgs rest)
              rw [List.nil_append]
              exact List.Sublist.cons m (ih s c)

/-- C8: on a host_available notice the client session records the announced
host id, closes any previously held engine connection before a fresh one
becomes current, and sends exactly one client_ready targeted at that host;
the one-live-connection property is preserved, so even repeated notices for
the same host never leave two concurrent engine connections. -/
theorem c8_host_available_resets (st : ClientState) (hid : Option String)
    (h1 : OneLive st) (h2 : WfPc st) :
    (handle_host_available st hid).1.host_id = hid ∧
    (∀ pc, st.peer_connection = some pc →
      pc ∈ (handle_host_available st hid).1.closed_pcs) ∧
    (handle_host_available st hid).1.peer_connection = some st.next_pc ∧
    (∀ pc, st.peer_connection = some pc → ¬ pc = st.next_pc) ∧
    (handle_host_available st hid).2 = [ClientOut.client_ready st.peer_id hid] ∧
    OneLive (handle_host_available st hid).1 ∧
    WfPc (handle_host_available st hid).1 := by
  cases hpc : st.peer_connection with
  | some pc0 =>
      have hst1 : (handle_host_available st hid).1 =
          ClientState.mk st.peer_id hid (some st.next_pc) (st.next_pc + 1)
            (pc0 :: st.closed_pcs) false [] := by
        unfold handle_host_available create_peer_connection
        simp only [hpc]
      refine ⟨by rw [hst1], ?_, by rw [hst1], ?_, rfl, ?_, ?_⟩
      · intro pc hpcc
        have hpe : pc = pc0 := (Option.some.inj hpcc).symm
        rw [hst1, hpe]
        exact List.mem_cons_self pc0 st.closed_pcs
      · intro pc hpcc
        have hpe : pc = pc0 := (Option.some.inj hpcc).symm
        rw [hpe]
        exact Nat.ne_of_lt (h2 pc0 hpc)
      · rw [hst1]
        intro pc hlt hnm
        have hlt' : pc < st.next_pc + 1 := hlt
        have hnm' : pc ∉ pc0 :: st.closed_pcs := hnm
        show some st.next_pc = some pc
        by_cases hpe : pc = st.next_pc
        · rw [hpe]
        · have hlt2 : pc < st.next_pc := by omega
          have hmem : pc ∉ st.closed_pcs := fun hmm =>
            hnm' (List.mem_cons_of_mem pc0 hmm)
          have hcur := h1 pc hlt2 hmem
          rw [hpc] at hcur
          have hpp : pc = pc0 := (Option.some.inj hcur).symm
          have hin : pc ∈ pc0 :: st.closed_pcs := by
            rw [hpp]
            exact List.mem_cons_self pc0 st.closed_pcs
          exact absurd hin hnm'
      · rw [hst1]
        intro pc hpcc
        have hpe : st.next_pc = pc := Option.some.inj hpcc
        show pc < st.next_pc + 1
        omega
  | none =>
      have hst1 : (handle_host_available st hid).1 =
          ClientState.mk st.peer_id hid (some st.next_pc) (st.next_pc + 1)
            st.closed_pcs false [] := by
        unfold handle_host_available create_peer_connection
        simp only [hpc]
      refine ⟨by rw [hst1], ?_, by rw [hst1], ?_, rfl, ?_, ?_⟩
      · intro pc hpcc
        cases hpcc
      · intro pc hpcc
        cases hpcc
      · rw [hst1]
        intro pc hlt hnm
        have hlt' : pc < st.next_pc + 1 := hlt
        have hnm' : pc ∉ st.closed_pcs := hnm
        show some st.next_pc = some pc
        by_cases hpe : pc = st.next_pc
        · rw [hpe]
        · have hlt2 : pc < st.next_pc := by omega
          have hcur := h1 pc hlt2 hnm'
          rw [hpc] at hcur
          cases hcur
      · rw [hst1]
        intro pc hpcc
        have hpe : st.next_pc = pc := Option.some.inj hpcc
        show pc < st.next_pc + 1
        omega

/-- Witness for C8: a session that already holds engine connection 0 after a
first host_available for h1 receives the same notice again; the old
connection is closed, a fresh one becomes current, exactly one client_ready
goes to h1, and the one-live-connection property still holds. -/
theorem c8_host_available_resets_witness :
    (handle_host_available (ClientState.mk "c1" (some "h1") (some 0) 1 [] false [])
      (some "h1")).1.host_id = some "h1" ∧
    (∀ pc, (ClientState.mk "c1" (some "h1") (some 0) 1 [] false []).peer_connection
        = some pc →
      pc ∈ (handle_host_available (ClientState.mk "c1" (some "h1") (some 0) 1 [] false [])
        (some "h1")).1.closed_pcs) ∧
    (handle_host_available (ClientState.mk "c1" (some "h1") (some 0) 1 [] false [])
      (some "h1")).1.peer_connection = some 1 ∧
    (∀ pc, (ClientState.mk "c1" (some "h1") (some 0) 1 [] false []).peer_connection
        = some pc → ¬ pc = 1) ∧
    (handle_host_available (ClientState.mk "c1" (some "h1") (some 0) 1 [] false [])
      (some "h1")).2 = [ClientOut.client_ready "c1" (some "h1")] ∧
    OneLive (handle_host_available (ClientState.mk "c1" (some "h1") (some 0) 1 [] false [])
      (some "h1")).1 ∧
    WfPc (handle_host_available (ClientState.mk "c1" (some "h1") (some 0) 1 [] false [])
      (some "h1")).1 :=
  c8_host_available_resets (ClientState.mk "c1" (some "h1") (some 0) 1 [] false [])
    (some "h1")
    (fun pc hlt _ => by
      have hlt' : pc < 1 := hlt
      have hpe : pc = 0 := by omega
      rw [hpe])
    (fun pc hpcc => by
      rw [← Option.some.inj hpcc]
      decide)

end Claims

end Spec2Proof
